import Mathlib

/-!
Shallow embedding of `src/modern_features.py` (a Python 3.12 feature-demo
script) and verification of its specification claims.

Modelling conventions:
  * Python lists become Lean `List`s; the mutable `Stack` becomes a
    one-field structure, with `pop` returning the popped value together
    with the updated stack.
  * Operations that raise exceptions (`list.pop`, `items[0]`, `items[-1]`,
    `dict[key]`) are modelled with `Option`: `none` is the raised error.
  * Python `dict[str, str]` becomes an association list `StringDict`;
    `getItem?` models `d[k]` (a `KeyError` is `none`) and
    `StringDict.get` models `d.get(k, default)`.
  * Python strings are Lean `String`s (lists of characters).  `pyStrip`
    models `str.strip()`: the only whitespace appearing in the program's
    template is `' '` and `'\n'`, on which Lean's `Char.isWhitespace`
    agrees with Python's notion of whitespace.
  * Python floats are idealised as real numbers; `x ** 0.5` becomes
    real exponentiation `x ^ (0.5 : ℝ)`.
-/

namespace ModernFeatures

/-- `class Stack[T]` — a generic stack owning a list of items,
created empty by `__init__`. -/
structure Stack (T : Type) where
  items : List T

/-- `Stack()` — `__init__` sets `self.items = []`. -/
def Stack.new (T : Type) : Stack T := ⟨[]⟩

/-- `push(self, item)` — `self.items.append(item)`. -/
def Stack.push (s : Stack T) (item : T) : Stack T := ⟨s.items ++ [item]⟩

/-- `pop(self)` — `return self.items.pop()`: removes and returns the
last element of `items`; Python raises `IndexError` on an empty list,
modelled as `none`. -/
def Stack.pop (s : Stack T) : Option (T × Stack T) :=
  match s.items.getLast? with
  | none => none
  | some x => some (x, ⟨s.items.dropLast⟩)

/-- `first[T](items)` — `return items[0]`; `IndexError` on empty is `none`. -/
def first (items : List T) : Option T := items[0]?

/-- `last[T](items)` — `return items[-1]` (the element at the highest
index); `IndexError` on empty is `none`. -/
def last (items : List T) : Option T := items.getLast?

/-- `class Animal` — stateless base class. -/
structure Animal where

/-- `class Dog(Animal)` — stateless subclass. -/
structure Dog extends Animal where

/-- `class Cat(Animal)` — stateless subclass. -/
structure Cat extends Animal where

/-- `Animal.sound` — `return "Some sound"`. -/
def Animal.sound (_ : Animal) : String := "Some sound"

/-- `Dog.sound` — the `@override` method, `return "Woof!"`. -/
def Dog.sound (_ : Dog) : String := "Woof!"

/-- `Cat.sound` — the `@override` method, `return "Meow!"`. -/
def Cat.sound (_ : Cat) : String := "Meow!"

/-- `type StringDict = dict[str, str]`, modelled as an association list
(with the leftmost binding of a key the authoritative one). -/
def StringDict : Type := List (String × String)

/-- `d[k]` on a `dict` — `some` of the stored value, `none` for the
`KeyError` raised when `k` is absent. -/
def StringDict.getItem? (d : StringDict) (k : String) : Option String :=
  (List.find? (fun p => p.1 == k) d).map Prod.snd

/-- `d.get(k, default)` on a `dict` — the stored value when `k` is
present, otherwise `default`. -/
def StringDict.get (d : StringDict) (k default : String) : String :=
  (d.getItem? k).getD default

/-- `str.strip()` on a list of characters: drop whitespace characters
from both ends. -/
def stripChars (l : List Char) : List Char :=
  ((l.dropWhile Char.isWhitespace).reverse.dropWhile Char.isWhitespace).reverse

/-- `str.strip()` — remove leading and trailing whitespace.  For the
characters occurring in this program (space and newline) Lean's
`Char.isWhitespace` coincides with Python's whitespace. -/
def pyStrip (s : String) : String := ⟨stripChars s.data⟩

/-- `format_user_data(user_data)` — builds the two intermediate
single-line strings (whose `dict` subscripts are where a `KeyError`
for `"name"` or `"status"` first surfaces), then the multi-line
f-string template, and returns `result.strip()`. -/
def format_user_data (user_data : StringDict) : Option String := do
  let nameVal ← user_data.getItem? "name"
  let statusVal ← user_data.getItem? "status"
  let _name := "User: " ++ nameVal
  let _status := "Status: " ++ statusVal
  let result :=
    "\n        Name: " ++ nameVal ++
    "\n        Email: " ++ user_data.get "email" "N/A" ++
    "\n        Status: " ++ statusVal ++
    "\n    "
  return pyStrip result

/-- `type Point = tuple[float, float]`, floats idealised as reals. -/
abbrev Point : Type := ℝ × ℝ

/-- `distance(p1, p2)` — `((x2 - x1) ** 2 + (y2 - y1) ** 2) ** 0.5`. -/
noncomputable def distance (p1 p2 : Point) : ℝ :=
  ((p2.1 - p1.1) ^ (2 : ℕ) + (p2.2 - p1.2) ^ (2 : ℕ)) ^ ((0.5 : ℝ))

/-- Splitting a character list at newline characters (the "lines" of a
text block, in the sense of Python's `split("\n")`). -/
def splitLinesAux : List Char → List Char → List (List Char)
  | [], acc => [acc.reverse]
  | c :: cs, acc =>
    if c = '\n' then acc.reverse :: splitLinesAux cs []
    else splitLinesAux cs (c :: acc)

/-- The lines of a string: split at every `'\n'`. -/
def linesOf (s : String) : List String :=
  (splitLinesAux s.data []).map (fun l => ⟨l⟩)

/-- Pushing a list of values in order: `push v1; ...; push vn`. -/
def pushAll (s : Stack T) (vs : List T) : Stack T :=
  vs.foldl Stack.push s

/-- Performing `n` pops in a row, collecting the popped values in pop
order; fails (`none`) if any pop hits an empty stack. -/
def popAll : Nat → Stack T → Option (List T × Stack T)
  | 0, s => some ([], s)
  | n + 1, s => do
    let (x, s1) ← s.pop
    let (xs, s2) ← popAll n s1
    return (x :: xs, s2)

/-! ### Helper lemmas -/

/-- Pushing a list of values appends it to the stack's item list. -/
theorem pushAll_items (vs : List T) : ∀ s : Stack T, (pushAll s vs).items = s.items ++ vs := by
  induction vs with
  | nil => intro s; simp [pushAll]
  | cons v vs ih =>
    intro s
    have h := ih (s.push v)
    simp only [pushAll, List.foldl_cons, Stack.push] at h ⊢
    rw [h]
    simp

/-- Popping `vs.length` times from a stack holding `l ++ vs` yields the
pushed values reversed and leaves `l`. -/
theorem popAll_pushed (vs : List T) :
    ∀ l : List T, popAll vs.length (Stack.mk (l ++ vs)) = some (vs.reverse, Stack.mk l) := by
  induction vs using List.reverseRecOn with
  | nil => intro l; simp [popAll]
  | append_singleton ws v ih =>
    intro l
    have hpop : (Stack.mk (l ++ (ws ++ [v]))).pop = some (v, Stack.mk (l ++ ws)) := by
      simp [Stack.pop, ← List.append_assoc, List.getLast?_concat, List.dropLast_concat]
    have hlen : (ws ++ [v]).length = ws.length + 1 := by simp
    rw [hlen]
    simp [popAll, hpop, ih l]

/-- `dropWhile` jumps over an element on which the predicate fails. -/
theorem dropWhile_append_of_neg (p : Char → Bool) (c : Char) (hc : p c = false) :
    ∀ u v : List Char, List.dropWhile p (u ++ c :: v) = List.dropWhile p u ++ c :: v := by
  intro u v
  induction u with
  | nil => simp [List.dropWhile, hc]
  | cons a u ih => cases hpa : p a <;> simp [List.dropWhile, hpa, ih]

/-- Stripping trailing whitespace never reaches past a non-whitespace
character. -/
theorem rstrip_append_of_neg (c : Char) (hc : Char.isWhitespace c = false) (u v : List Char) :
    ((u ++ c :: v).reverse.dropWhile Char.isWhitespace).reverse
      = u ++ c :: ((v.reverse.dropWhile Char.isWhitespace).reverse) := by
  rw [List.reverse_append, List.reverse_cons, List.append_assoc, List.singleton_append,
    dropWhile_append_of_neg _ c hc]
  simp

/-- A line of the part after a newline is a line of the whole text. -/
theorem mem_splitLinesAux_append (e : List Char) (v : List Char)
    (h : e ∈ splitLinesAux v []) :
    ∀ (u acc : List Char), e ∈ splitLinesAux (u ++ '\n' :: v) acc := by
  intro u
  induction u with
  | nil =>
    intro acc
    simp only [List.nil_append, splitLinesAux, if_pos rfl]
    exact List.mem_cons_of_mem _ h
  | cons c u ih =>
    intro acc
    by_cases hc : c = '\n'
    · subst hc
      simp only [List.cons_append, splitLinesAux, if_pos rfl]
      exact List.mem_cons_of_mem _ (ih [])
    · simp only [List.cons_append, splitLinesAux, if_neg hc]
      exact ih (c :: acc)

/-- Splitting text that starts with a newline-free segment: that segment
(after the pending accumulator) is the first line. -/
theorem splitLinesAux_flush (w : List Char) (hw : '\n' ∉ w) :
    ∀ (v acc : List Char),
      splitLinesAux (w ++ '\n' :: v) acc = (acc.reverse ++ w) :: splitLinesAux v [] := by
  induction w with
  | nil => intro v acc; simp [splitLinesAux]
  | cons c w ih =>
    intro v acc
    have hc : ¬(c = '\n') := fun h => hw (by simp [h])
    have hw2 : '\n' ∉ w := fun h => hw (List.mem_cons_of_mem _ h)
    simp only [List.cons_append, splitLinesAux, if_neg hc, List.append_eq]
    rw [ih hw2 v (c :: acc)]
    simp

/-- Stripping the formatter's template (with arbitrary name and status
values spliced in and the "N/A" email fallback) leaves a text one of
whose lines is exactly `"        Email: N/A"`. -/
theorem email_line_mem_strip (nd sd : List Char) :
    "        Email: N/A".data ∈
      splitLinesAux (stripChars ("\n        Name: ".data ++ nd ++ "\n        Email: ".data ++
        "N/A".data ++ "\n        Status: ".data ++ sd ++ "\n    ".data)) [] := by
  have hlead : ∀ t : List Char,
      List.dropWhile Char.isWhitespace ("\n        Name: ".data ++ t) = "Name: ".data ++ t :=
    fun t => rfl
  have hmid : ∀ t : List Char,
      "\n        Email: ".data ++ ("N/A".data ++ ("\n        Status: ".data ++ t)) =
        "\n        Email: N/A\n        Status".data ++ (':' :: (' ' :: t)) :=
    fun t => rfl
  have hinner : ∀ z : List Char,
      "\n        Email: N/A\n        Status".data ++ z =
        '\n' :: ("        Email: N/A".data ++ ('\n' :: ("        Status".data ++ z))) :=
    fun z => rfl
  simp only [stripChars, List.append_assoc]
  rw [hmid (sd ++ "\n    ".data), hlead]
  have hU : "Name: ".data ++ (nd ++ ("\n        Email: N/A\n        Status".data ++
        (':' :: (' ' :: (sd ++ "\n    ".data))))) =
      ("Name: ".data ++ nd ++ "\n        Email: N/A\n        Status".data) ++
        ':' :: (' ' :: (sd ++ "\n    ".data)) := by
    simp [List.append_assoc]
  rw [hU, rstrip_append_of_neg ':' (by decide)]
  have hshape : ∀ z : List Char,
      ("Name: ".data ++ nd ++ "\n        Email: N/A\n        Status".data) ++ z =
        ("Name: ".data ++ nd) ++ '\n' :: ("        Email: N/A".data ++
          ('\n' :: ("        Status".data ++ z))) := by
    intro z
    simp only [List.append_assoc]
    rw [hinner z]
  rw [hshape]
  apply mem_splitLinesAux_append
  rw [splitLinesAux_flush _ (by decide)]
  simp

/-! ### Claims -/

/-- Claim C2: pushing `v1..vn` in order onto a freshly constructed stack
and then popping `n` times returns the values in reverse order
`vn..v1` and leaves the stack empty (LIFO law). -/
theorem stack_lifo (T : Type) (vs : List T) :
    popAll vs.length (pushAll (Stack.new T) vs) = some (vs.reverse, Stack.new T) := by
  have h : pushAll (Stack.new T) vs = Stack.mk ([] ++ vs) := by
    have := pushAll_items vs (Stack.new T)
    cases hp : pushAll (Stack.new T) vs
    simp_all [Stack.new]
  rw [h]
  exact popAll_pushed vs []

/-- Claim C3: popping a stack whose item sequence has zero elements
fails (returns no value). -/
theorem pop_empty_fails (T : Type) (s : Stack T) (h : s.items.length = 0) :
    s.pop = none := by
  have hnil : s.items = [] := List.eq_nil_of_length_eq_zero h
  simp [Stack.pop, hnil]

/-- Witness for C3: the freshly constructed `Stack` is empty and its
`pop` fails. -/
theorem pop_empty_fails_witness :
    (Stack.new Nat).items.length = 0 ∧ (Stack.new Nat).pop = none :=
  ⟨rfl, pop_empty_fails Nat (Stack.new Nat) rfl⟩

/-- Claim C4: for every element type, `first` and `last` fail on the
empty sequence. -/
theorem first_last_empty (T : Type) :
    first ([] : List T) = none ∧ last ([] : List T) = none :=
  ⟨rfl, rfl⟩

/-- Claim C5: on a non-empty sequence, `first` returns the element at the
lowest index and `last` the element at the highest index (the embedding
is pure, so neither can mutate its argument); on any single-element
sequence both return that element. -/
theorem first_last_nonempty (T : Type) (items : List T) (h : 0 < items.length) :
    first items = some (items.get ⟨0, h⟩) ∧
    last items = some (items.get ⟨items.length - 1, Nat.sub_lt h Nat.one_pos⟩) ∧
    ∀ a : T, first [a] = some a ∧ last [a] = some a := by
  refine ⟨?_, ?_, fun a => ⟨rfl, rfl⟩⟩
  · simp [first, List.getElem?_eq_getElem h]
  · rw [last, List.getLast?_eq_getLast _ (List.ne_nil_of_length_pos h), List.getLast_eq_getElem]
    simp

/-- Witness for C5 at the concrete sequence `[10, 20, 30]`. -/
theorem first_last_nonempty_witness :
    0 < ([10, 20, 30] : List Nat).length ∧
    first ([10, 20, 30] : List Nat) = some 10 ∧
    last ([10, 20, 30] : List Nat) = some 30 := by
  have h := first_last_nonempty Nat [10, 20, 30] (by decide)
  exact ⟨by decide, by rw [h.1]; rfl, by rw [h.2.1]; rfl⟩

/-- Claim C6: every `Dog` sounds "Woof!", every `Cat` sounds "Meow!",
and every base `Animal` sounds "Some sound". -/
theorem animal_sounds :
    (∀ d : Dog, d.sound = "Woof!") ∧
    (∀ c : Cat, c.sound = "Meow!") ∧
    (∀ a : Animal, a.sound = "Some sound") :=
  ⟨fun _ => rfl, fun _ => rfl, fun _ => rfl⟩

/-- Claim C8: `format_user_data` fails (propagating the `KeyError`)
whenever the mapping lacks key "name" or lacks key "status"; no default
is substituted for either. -/
theorem format_missing_key (d : StringDict)
    (h : d.getItem? "name" = none ∨ d.getItem? "status" = none) :
    format_user_data d = none := by
  rcases h with h | h
  · simp [format_user_data, h]
  · cases hn : d.getItem? "name" with
    | none => simp [format_user_data, hn]
    | some nv => simp [format_user_data, hn, h]

/-- Witness for C8 at the spec's concrete input `{"status": "active"}`. -/
theorem format_missing_key_witness :
    StringDict.getItem? [("status", "active")] "name" = none ∧
    format_user_data [("status", "active")] = none := by
  have h : StringDict.getItem? [("status", "active")] "name" = none := by
    simp [StringDict.getItem?]
  exact ⟨h, format_missing_key _ (Or.inl h)⟩

/-- Claim C10: the result of `format_user_data` (including whether it
succeeds) depends only on the lookups of the keys "name", "email" and
"status": two mappings agreeing on those lookups (also on absence)
produce identical outcomes, whatever other keys they hold. -/
theorem format_depends_only_on_fields (d1 d2 : StringDict)
    (hn : d1.getItem? "name" = d2.getItem? "name")
    (he : d1.getItem? "email" = d2.getItem? "email")
    (hs : d1.getItem? "status" = d2.getItem? "status") :
    format_user_data d1 = format_user_data d2 := by
  simp only [format_user_data, StringDict.get, hn, he, hs]

/-- Witness for C10: two concrete mappings that agree on the three keys
but differ in an extra key "age" and in binding order. -/
theorem format_depends_only_on_fields_witness :
    format_user_data [("name", "Alice"), ("status", "active")] =
      format_user_data [("age", "41"), ("status", "active"), ("name", "Alice")] := by
  exact format_depends_only_on_fields _ _
    (by simp [StringDict.getItem?]) (by simp [StringDict.getItem?])
    (by simp [StringDict.getItem?])

/-- Claim C9: `distance` computes the Euclidean distance (square root of
the sum of squared coordinate differences), and at the points `(0, 0)`
and `(3, 4)` it equals `5`.  Python floats are idealised as reals. -/
theorem distance_euclidean :
    (∀ p1 p2 : Point, distance p1 p2 =
      Real.sqrt ((p2.1 - p1.1) ^ 2 + (p2.2 - p1.2) ^ 2)) ∧
    distance ((0 : ℝ), (0 : ℝ)) ((3 : ℝ), (4 : ℝ)) = 5 := by
  have key : ∀ p1 p2 : Point, distance p1 p2 =
      Real.sqrt ((p2.1 - p1.1) ^ 2 + (p2.2 - p1.2) ^ 2) := by
    intro p1 p2
    simp only [distance]
    rw [Real.sqrt_eq_rpow]
    norm_num
  refine ⟨key, ?_⟩
  rw [key]
  have h25 : (((3 : ℝ), (4 : ℝ)).1 - ((0 : ℝ), (0 : ℝ)).1) ^ 2 +
      (((3 : ℝ), (4 : ℝ)).2 - ((0 : ℝ), (0 : ℝ)).2) ^ 2 = 5 ^ 2 := by norm_num
  rw [h25, Real.sqrt_sq (by norm_num : (0 : ℝ) ≤ 5)]

/-- Counterexample to claim C1 as stated: on the Alice input the lines
of the returned block are not "Name: Alice", "Email: alice@example.com",
"Status: active" — the second and third lines keep the template's
eight-space indentation, which `strip()` does not remove. -/
theorem format_alice_flush_lines_refuted :
    (format_user_data
        [("name", "Alice"), ("status", "active"), ("email", "alice@example.com")]).map linesOf ≠
      some ["Name: Alice", "Email: alice@example.com", "Status: active"] := by
  decide

/-- Claim C1 (amended): on the Alice input, `format_user_data` returns
the trimmed three-line block whose lines are exactly "Name: Alice",
"        Email: alice@example.com" and "        Status: active" (the
second and third lines keep the template's eight-space indentation), in
that order. -/
theorem format_alice_output :
    format_user_data
        [("name", "Alice"), ("status", "active"), ("email", "alice@example.com")] =
      some "Name: Alice\n        Email: alice@example.com\n        Status: active" ∧
    (format_user_data
        [("name", "Alice"), ("status", "active"), ("email", "alice@example.com")]).map linesOf =
      some ["Name: Alice", "        Email: alice@example.com", "        Status: active"] := by
  exact ⟨rfl, rfl⟩

/-- Counterexample to claim C7 as stated: on the Bob input (no "email"
key) the formatter succeeds but its Email line — the line at index 1 of
the returned block — is not "Email: N/A": it keeps the template's
eight-space indentation. -/
theorem format_bob_email_line_refuted :
    (format_user_data [("name", "Bob"), ("status", "idle")]).map
        (fun r => (linesOf r)[1]?) ≠
      some (some "Email: N/A") := by
  decide

/-- Claim C7 (amended): whenever the mapping has keys "name" and
"status" but no key "email", `format_user_data` succeeds and its
returned block contains the Email line "        Email: N/A" — the "N/A"
fallback for the absent optional key, preceded by the template's
eight-space indentation. -/
theorem format_no_email_line (d : StringDict) (nv sv : String)
    (hn : StringDict.getItem? d "name" = some nv)
    (hs : StringDict.getItem? d "status" = some sv)
    (he : StringDict.getItem? d "email" = none) :
    ∃ r, format_user_data d = some r ∧ "        Email: N/A" ∈ linesOf r := by
  have hfmt : format_user_data d =
      some (pyStrip ("\n        Name: " ++ nv ++ "\n        Email: " ++ "N/A" ++
        "\n        Status: " ++ sv ++ "\n    ")) := by
    simp [format_user_data, StringDict.get, hn, hs, he]
  refine ⟨_, hfmt, ?_⟩
  show "        Email: N/A" ∈ (splitLinesAux (stripChars (("\n        Name: " ++ nv ++
    "\n        Email: " ++ "N/A" ++ "\n        Status: " ++ sv ++ "\n    ").data)) []).map
      (fun l => String.mk l)
  have hdata : ("\n        Name: " ++ nv ++ "\n        Email: " ++ "N/A" ++
      "\n        Status: " ++ sv ++ "\n    ").data =
      "\n        Name: ".data ++ nv.data ++ "\n        Email: ".data ++ "N/A".data ++
        "\n        Status: ".data ++ sv.data ++ "\n    ".data := by
    simp [String.data_append]
  rw [hdata]
  exact List.mem_map_of_mem _ (email_line_mem_strip nv.data sv.data)

/-- Witness for the amended C7 at the spec's concrete Bob input. -/
theorem format_no_email_line_witness :
    StringDict.getItem? [("name", "Bob"), ("status", "idle")] "name" = some "Bob" ∧
    StringDict.getItem? [("name", "Bob"), ("status", "idle")] "status" = some "idle" ∧
    StringDict.getItem? [("name", "Bob"), ("status", "idle")] "email" = none ∧
    ∃ r, format_user_data [("name", "Bob"), ("status", "idle")] = some r ∧
      "        Email: N/A" ∈ linesOf r := by
  refine ⟨by decide, by decide, by decide, ?_⟩
  exact format_no_email_line _ "Bob" "idle" (by decide) (by decide) (by decide)

end ModernFeatures
